import Mathlib

/-!
Shallow embedding of the refresh/caching/backoff subsystem of the
crypto-analyzer dashboard (source: `src/crypto-price-analyzer.tsx`).

JavaScript numbers are modelled as `ℚ` (exact rationals); millisecond
timestamps as `ℤ`.  Places where IEEE-754 semantics differ structurally
from `ℚ` (the `NaN` produced by an average over an empty slice in
`getRecommendation`) are embedded explicitly and documented at the
definition.
-/

namespace CryptoAnalyzer

/-! ### Refresh mode selection (`getRefreshMode`, source lines 106–129) -/

inductive Mode
  | priceOnly
  | smart
  | full
deriving DecidableEq, Repr

/-- Embeds the `RefreshMode` record returned by `getRefreshMode`. -/
structure RefreshMode where
  mode : Mode
  label : String
  color : String
  description : String
deriving DecidableEq, Repr

/-- `getRefreshMode` from the source: interval ≤ 10 → price-only,
interval ≤ 30 → smart, otherwise full. -/
def getRefreshMode (intervalMinutes : ℚ) : RefreshMode :=
  if intervalMinutes ≤ 10 then
    { mode := .priceOnly
      label := "Price Only"
      color := "text-yellow-400"
      description := "Updates current prices only to minimize API usage" }
  else if intervalMinutes ≤ 30 then
    { mode := .smart
      label := "Smart"
      color := "text-blue-400"
      description := "Balances data freshness with API rate limits" }
  else
    { mode := .full
      label := "Full"
      color := "text-green-400"
      description := "Refreshes all data including historical charts" }

inductive DataType
  | current
  | historical
deriving DecidableEq, Repr

/-- `getCacheDuration` from the source (milliseconds). -/
def getCacheDuration (intervalMinutes : ℚ) (dataType : DataType) : ℤ :=
  match dataType with
  | .current => if intervalMinutes ≤ 10 then 2 * 60 * 1000 else 5 * 60 * 1000
  | .historical =>
    if intervalMinutes ≤ 10 then 60 * 60 * 1000
    else if intervalMinutes ≤ 30 then 45 * 60 * 1000
    else 30 * 60 * 1000

/-! ### Rate budget tracker (`trackAPICall`, `isRateLimited`,
`handleRateLimit`, source lines 448–498) -/

/-- `API_LIMITS.CALLS_PER_MINUTE`. -/
def CALLS_PER_MINUTE : ℕ := 10

/-- `API_LIMITS.BACKOFF_DURATION` (5 minutes, in ms). -/
def BACKOFF_DURATION : ℤ := 5 * 60 * 1000

/-- The `APIBudget` state record.  Times are millisecond timestamps;
`none` embeds the `null` fields of the source. -/
structure APIBudget where
  callsThisMinute : ℕ
  resetTime : ℤ
  lastRateLimit : Option ℤ
  backoffUntil : Option ℤ
deriving DecidableEq, Repr

/-- `trackAPICall`: reset the window counter to 1 (and advance the reset
time by 60 s) once `now` has passed `resetTime`, else increment. -/
def trackAPICall (now : ℤ) (b : APIBudget) : APIBudget :=
  if now > b.resetTime then
    { b with callsThisMinute := 1, resetTime := now + 60000 }
  else
    { b with callsThisMinute := b.callsThisMinute + 1 }

/-- `isRateLimited`: true when `now` is before a set `backoffUntil`, or the
per-minute counter has reached `CALLS_PER_MINUTE`. -/
def isRateLimited (now : ℤ) (b : APIBudget) : Bool :=
  match b.backoffUntil with
  | some t => if now < t then true else decide (b.callsThisMinute ≥ CALLS_PER_MINUTE)
  | none => decide (b.callsThisMinute ≥ CALLS_PER_MINUTE)

/-- The budget-state effect of `handleRateLimit` on a 429-flavoured error:
records the rejection time and sets `backoffUntil = now + BACKOFF_DURATION`.
(The interval auto-raise side effect of `handleRateLimit` acts on the
refresh configuration, not on the budget, and is not needed here.) -/
def handleRateLimitBudget (now : ℤ) (b : APIBudget) : APIBudget :=
  { b with lastRateLimit := some now, backoffUntil := some (now + BACKOFF_DURATION) }

/-! ### Historical-data rotation (`shouldUpdateHistoricalData`,
`getNextCryptoForRotation`, source lines 499–522), restricted to smart
mode (11–30 minute intervals), where the decision is `rotationIndex % 3 == 0`
and the cursor advances only inside `getNextCryptoForRotation`. -/

/-- One smart-mode refresh cycle acting on the rotation cursor: the cycle
fetches historical data only when `cursor % 3 == 0`
(`shouldUpdateHistoricalData`), and in that case `getNextCryptoForRotation`
selects index `cursor % n` among the `n` tracked assets and advances the
cursor by one; on an ineligible cycle the cursor is untouched. -/
def smartCycleStep (n : ℕ) (cursor : ℕ) : ℕ × Option ℕ :=
  if cursor % 3 = 0 then
    if n = 0 then (cursor, none) else (cursor + 1, some (cursor % n))
  else (cursor, none)

/-- Run `cycles` consecutive smart-mode refresh cycles from a cursor,
returning the final cursor and the list of selected asset indices. -/
def smartRun (n : ℕ) : ℕ → ℕ → ℕ × List ℕ
  | 0, cursor => (cursor, [])
  | cycles + 1, cursor =>
    let (cursor1, sel) := smartCycleStep n cursor
    let (cursorEnd, sels) := smartRun n cycles cursor1
    (cursorEnd, (match sel with | some i => [i] | none => []) ++ sels)

/-! ### Fetch-with-cache (`fetchWithCache`, source lines 536–609)

The network is an oracle `resp : ℕ → Resp α` giving the outcome of the
attempt made at retry counter `r`.  The observable side effects of one
`fetchWithCache` call are collected in an event trace: artificial delays
(`wait`), budget-counter mutations (`trackCall`), network attempts
(`netAttempt`) and cache writes (`cacheWrite`). -/

/-- Outcome of one `fetch(url)` call: a rejected promise, or an HTTP
response with its `ok` flag, status code and parsed JSON body. -/
inductive Resp (α : Type) where
  | reject
  | http (ok : Bool) (status : ℕ) (body : α)
deriving DecidableEq

inductive Event where
  | wait (ms : ℕ)
  | trackCall
  | netAttempt (retries : ℕ)
  | cacheWrite
deriving DecidableEq, Repr

/-- The errors `fetchWithCache` can throw:
`rateLimitedNoCache` = "Rate limited and no cached data available";
`parseError` = `JSON.parse` throwing on an unreadable cache entry;
`rateLimitExceeded` = "Rate limit exceeded" carrying `status = 429`;
`apiError s` = "API error: s" for a non-ok, non-429 response;
`networkError` = a rejected `fetch` promise. -/
inductive FetchErr where
  | rateLimitedNoCache
  | parseError
  | rateLimitExceeded
  | apiError (status : ℕ)
  | networkError
deriving DecidableEq, Repr

inductive FetchResult (α : Type) where
  | ok (data : α)
  | err (e : FetchErr)
deriving DecidableEq

/-- The test `handleRateLimit` applies to a caught error:
`error.status === 429 || error.message?.includes('429')`.  Only the
"Rate limit exceeded" error carries `status = 429`; the message
`API error: s` contains "429" (for HTTP statuses < 600) exactly when
`s = 429`, a case `fetchWithCache` never produces since status 429 is
intercepted first; no other message contains "429". -/
def is429Error : FetchErr → Bool
  | .rateLimitExceeded => true
  | .apiError s => decide (s = 429)
  | _ => false

/-- The events emitted at the top of the retry-loop iteration with counter
`retries`: the exponential-backoff delay `2 ^ retries` seconds (absent on
the first attempt), the `trackAPICall()` budget mutation (absent when
`skipRateLimit`), then the network attempt itself. -/
def attemptPre (skipRateLimit : Bool) (retries : ℕ) : List Event :=
  (if 0 < retries then [Event.wait (2 ^ retries * 1000)] else []) ++
    (if skipRateLimit then [] else [Event.trackCall]) ++ [Event.netAttempt retries]

/-- How one attempt's response is classified by the body of the `try`
block: status 429 throws the rate-limit error, any other non-ok response
throws `API error: status`, an ok response is a success. -/
def attemptOutcome {α : Type} : Resp α → FetchErr ⊕ α
  | .reject => .inl .networkError
  | .http ok status body =>
    if status = 429 then .inl .rateLimitExceeded
    else if !ok then .inl (.apiError status)
    else .inr body

/-- The `while (retries <= maxRetries)` retry loop.  `remaining` is the
number of retries still allowed (`maxRetries - retries`); when an attempt
fails with none remaining the error is rethrown, matching the
`if (retries === maxRetries) throw error` branch of the source's catch. -/
def attemptLoop {α : Type} (skipRateLimit : Bool) (resp : ℕ → Resp α) :
    ℕ → ℕ → List Event × FetchResult α
  | 0, retries =>
    (match attemptOutcome (resp retries) with
     | .inl e => (attemptPre skipRateLimit retries, .err e)
     | .inr d => (attemptPre skipRateLimit retries ++ [Event.cacheWrite], .ok d))
  | remaining + 1, retries =>
    (match attemptOutcome (resp retries) with
     | .inl _ =>
       let rest := attemptLoop skipRateLimit resp remaining (retries + 1)
       (attemptPre skipRateLimit retries ++ rest.1, rest.2)
     | .inr d => (attemptPre skipRateLimit retries ++ [Event.cacheWrite], .ok d))

/-- A raw `localStorage` value under a cache key: either a well-formed
`{timestamp, data}` envelope, or an unreadable string on which
`JSON.parse` throws. -/
inductive StoredVal (α : Type) where
  | entry (timestamp : ℤ) (data : α)
  | corrupt
deriving DecidableEq

/-- `fetchWithCache`.  `store` is the cache keyed by strings (`none` =
absent).  Returns the emitted event trace together with the result.
Source order: (1) unless `skipRateLimit`, a blocked rate budget answers
from the cache with no ttl check (throwing when the key is absent);
(2) a fresh cached entry answers directly; (3) otherwise the retry loop
runs with `maxRetries = 3` starting at `retries = 0`. -/
def fetchWithCache {α : Type} (b : APIBudget) (now : ℤ)
    (store : String → Option (StoredVal α)) (cacheKey : String)
    (cacheDuration : ℤ) (skipRateLimit : Bool) (resp : ℕ → Resp α) :
    List Event × FetchResult α :=
  if !skipRateLimit && isRateLimited now b then
    match store cacheKey with
    | some (.entry _ d) => ([], .ok d)
    | some .corrupt => ([], .err .parseError)
    | none => ([], .err .rateLimitedNoCache)
  else
    match store cacheKey with
    | some (.entry timestamp d) =>
      if now - timestamp < cacheDuration then ([], .ok d)
      else attemptLoop skipRateLimit resp 3 0
    | some .corrupt => ([], .err .parseError)
    | none => attemptLoop skipRateLimit resp 3 0

/-- Replay a trace event against the budget state: only `trackCall`
events mutate it (via `trackAPICall`). -/
def applyEvent (now : ℤ) (b : APIBudget) : Event → APIBudget
  | .trackCall => trackAPICall now b
  | _ => b

/-- The budget state after `fetchCryptoData` runs one `fetchWithCache`
call and handles its outcome (source lines 745–752): the `trackCall`
events of the trace are replayed, and rejection handling
(`handleRateLimit`) fires only in the `catch` branch, i.e. only when the
call as a whole failed, and only on a 429-flavoured error.  Call
timestamps are abstracted to the single cycle time `now`; `backoffUntil`,
the field at issue, is never touched by `trackAPICall`. -/
def fetchCycleBudget {α : Type} (now : ℤ) (b : APIBudget)
    (outcome : List Event × FetchResult α) : APIBudget :=
  let b1 := outcome.1.foldl (applyEvent now) b
  match outcome.2 with
  | .ok _ => b1
  | .err e => if is429Error e then handleRateLimitBudget now b1 else b1

/-! ### Chart data assembly (`processChartData`, source lines 759–845, and
`updateCurrentPriceInExistingData`, lines 848–902)

Historical series are lists of `(timestampMs, usdPrice)` pairs; the
current-price batch is a partial map `String → Option ℚ` giving each
asset's `usd` field.  JS truthiness of `x?.usd` (absent or `0` both
falsy) is `usdTruthy`.  `new Date(t).toISOString().split('T')[0]` is
abstracted to the UTC day index rendered as a string (`dateString`):
UTC calendar days are exactly the 86,400,000 ms slices of the timeline,
so two timestamps receive equal date strings exactly when the source
formats them to the same date. -/

def dateString (t : ℤ) : String := toString (t.fdiv 86400000)

structure CryptoConfig where
  id : String
  symbol : String
  name : String
  color : String
deriving DecidableEq, Repr

structure CryptoDataPoint where
  date : String
  timestamp : ℤ
  btcPrice : ℚ
  prices : String → Option ℚ
  ratios : String → Option ℚ

/-- JS truthiness of `currentPricesData[id]?.usd`: an absent asset and a
zero price are both falsy. -/
def usdTruthy (cur : String → Option ℚ) (id : String) : Bool :=
  match cur id with
  | some v => decide (v ≠ 0)
  | none => false

/-- The ratio rescaling applied everywhere a ratio is computed:
`ratio = price / btcPrice`, multiplied by 1000 when below 0.01. -/
def scaleRatio (cryptoPrice btcPrice : ℚ) : ℚ :=
  let ratio := cryptoPrice / btcPrice
  if ratio < 1 / 100 then ratio * 1000 else ratio

/-- Point update of a string-keyed map, embedding `obj[key] = v`. -/
def mapSet (m : String → Option ℚ) (key : String) (v : ℚ) : String → Option ℚ :=
  fun id => if id = key then some v else m id

/-- `findClosestPrice` from `processChartData`: `reduce` over the price
array keeping the sample whose timestamp is closest to the target.  JS
`reduce` without an initial value throws on an empty array, embedded as
`none`. -/
def findClosestPrice (priceArray : List (ℤ × ℚ)) (targetTimestamp : ℤ) : Option ℚ :=
  match priceArray with
  | [] => none
  | h :: t =>
    some (t.foldl
      (fun prev curr =>
        if |curr.1 - targetTimestamp| < |prev.1 - targetTimestamp| then curr else prev)
      h).2

/-- `List.mapM` specialised to `Option`, written out structurally:
the per-point loop body either produces a point or throws. -/
def traverseOption {α β : Type} (f : α → Option β) : List α → Option (List β)
  | [] => some []
  | a :: l =>
    match f a, traverseOption f l with
    | some b, some bs => some (b :: bs)
    | _, _ => none

/-- The inner `for (const crypto of selectedCryptos)` loop of the
historical-point builder: a crypto whose series is present gets its
closest-sample price and scaled ratio added to the maps; one whose
series is absent is skipped; a present but empty series makes
`findClosestPrice`'s `reduce` throw (`none`). -/
def buildHistMaps (hd : String → Option (List (ℤ × ℚ))) (timestamp : ℤ) (btcPrice : ℚ) :
    List CryptoConfig → ((String → Option ℚ) × (String → Option ℚ)) →
    Option ((String → Option ℚ) × (String → Option ℚ))
  | [], maps => some maps
  | c :: rest, maps =>
    match hd c.id with
    | none => buildHistMaps hd timestamp btcPrice rest maps
    | some priceArray =>
      match findClosestPrice priceArray timestamp with
      | none => none
      | some p =>
        buildHistMaps hd timestamp btcPrice rest
          (mapSet maps.1 c.id p, mapSet maps.2 c.id (scaleRatio p btcPrice))

/-- The `hasAllCurrentPrices` loop body shared by both chart functions:
cryptos with a truthy current price are added to the maps in order; the
first falsy one breaks the loop (nothing further is added). -/
def currentPricesMaps (cur : String → Option ℚ) (btcPrice : ℚ) :
    List CryptoConfig → ((String → Option ℚ) × (String → Option ℚ)) →
    ((String → Option ℚ) × (String → Option ℚ))
  | [], maps => maps
  | c :: rest, maps =>
    match cur c.id with
    | some p =>
      if p ≠ 0 then
        currentPricesMaps cur btcPrice rest
          (mapSet maps.1 c.id p, mapSet maps.2 c.id (scaleRatio p btcPrice))
      else maps
    | none => maps

/-- The synthetic "current" point appended by both chart functions:
dated and timestamped `now`, with the batched current prices and their
ratios against bitcoin. -/
def currentPoint (cur : String → Option ℚ) (cryptos : List CryptoConfig) (now : ℤ) :
    CryptoDataPoint :=
  let btcPrice := (cur "bitcoin").getD 0
  let maps := currentPricesMaps cur btcPrice cryptos
    (fun id => if id = "bitcoin" then some btcPrice else none, fun _ => none)
  ⟨dateString now, now, btcPrice, maps.1, maps.2⟩

/-- The resampling loop and sort of `processChartData`: stride
`step = max(1, ⌊len/30⌋)`, at most 30 points (the `break` on
`length >= 30`), each built from the bitcoin sample at the index, then
sorted by timestamp. -/
def sampledChartPoints (hd : String → Option (List (ℤ × ℚ)))
    (cryptos : List CryptoConfig) : Option (List CryptoDataPoint) :=
  match hd "bitcoin" with
  | none => some []
  | some btcPrices =>
    let step := max 1 (btcPrices.length / 30)
    let count := min ((btcPrices.length + step - 1) / step) 30
    let idx := List.range' 0 count step
    let sampled := idx.filterMap (fun i => btcPrices[i]?)
    (traverseOption
        (fun p =>
          (buildHistMaps hd p.1 p.2 cryptos
              (fun id => if id = "bitcoin" then some p.2 else none, fun _ => none)).map
            (fun maps => ⟨dateString p.1, p.1, p.2, maps.1, maps.2⟩))
        sampled).map
      (fun pts => pts.mergeSort (fun a b => decide (a.timestamp ≤ b.timestamp)))

/-- `processChartData`: no bitcoin historical series means an immediate
`[]`; otherwise the resampled, sorted points, with the synthetic current
point appended exactly when the batch has a truthy bitcoin price and a
truthy price for every tracked asset.  `none` embeds the function
throwing (empty `prices` array fed to `reduce`). -/
def processChartData (hd : String → Option (List (ℤ × ℚ))) (cur : String → Option ℚ)
    (cryptos : List CryptoConfig) (now : ℤ) : Option (List CryptoDataPoint) :=
  match hd "bitcoin" with
  | none => some []
  | some _ =>
    (sampledChartPoints hd cryptos).map fun base =>
      if usdTruthy cur "bitcoin" then
        if cryptos.all (fun c => usdTruthy cur c.id) then
          base ++ [currentPoint cur cryptos now]
        else base
      else base

/-- `updateCurrentPriceInExistingData`: with a falsy bitcoin price or no
existing data the input is returned unchanged; otherwise the trailing
point is dropped when it is dated today and both less than 24 h and less
than 6 h old, and the fresh current point is appended exactly when every
tracked asset has a truthy current price. -/
def updateCurrentPriceInExistingData (existingData : List CryptoDataPoint)
    (cur : String → Option ℚ) (cryptos : List CryptoConfig) (now : ℤ) :
    List CryptoDataPoint :=
  if !usdTruthy cur "bitcoin" || existingData.length == 0 then existingData
  else
    match existingData.getLast? with
    | none => existingData
    | some lastPoint =>
      let today := dateString now
      let dataToKeep :=
        if lastPoint.date = today ∧ now - lastPoint.timestamp < 24 * 60 * 60 * 1000 then
          if now - lastPoint.timestamp < 6 * 60 * 60 * 1000 then existingData.dropLast
          else existingData
        else existingData
      if cryptos.all (fun c => usdTruthy cur c.id) then
        dataToKeep ++ [currentPoint cur cryptos now]
      else dataToKeep

/-! ### Recommendation derivation (`getRecommendation`, source lines 936–1004) -/

/-- The `reason` strings of the source, abstracted to tags because three
of them interpolate formatted percentages:
`insufficientData` = "Insufficient data",
`insufficientHistorical` = "Insufficient historical data",
`upAboveAverage` = "SYM is up C% vs BTC over the past week and above average",
`downOpportunity` = "SYM is down C% vs BTC - may be a buying opportunity",
`stable` = "SYM is relatively stable vs BTC (C%)". -/
inductive ReasonTag
  | insufficientData
  | insufficientHistorical
  | upAboveAverage
  | downOpportunity
  | stable
deriving DecidableEq, Repr

structure Recommendation where
  action : String
  reason : ReasonTag
  color : String
  confidence : ℚ
  cryptoId : String
  symbol : String
deriving DecidableEq, Repr

/-- `d.ratios[cryptoId] || 0`. -/
def ratioOf (d : CryptoDataPoint) (cryptoId : String) : ℚ :=
  (d.ratios cryptoId).getD 0

/-- `data.slice(-7)`: the last up-to-7 points. -/
def recentSlice (data : List CryptoDataPoint) : List CryptoDataPoint :=
  data.drop (data.length - 7)

/-- `data.slice(-14, -7)`: the up-to-7 points preceding the last 7 (empty
when fewer than 8 points exist). -/
def olderSlice (data : List CryptoDataPoint) : List CryptoDataPoint :=
  (data.take (data.length - 7)).drop (data.length - 14)

/-- `slice.reduce((sum, d) => sum + (d.ratios[id] || 0), 0) / slice.length`. -/
def avgRatio (l : List CryptoDataPoint) (cryptoId : String) : ℚ :=
  ((l.map (fun d => ratioOf d cryptoId)).sum) / (l.length : ℚ)

/-- `data[data.length - 1].ratios[cryptoId] || 0`. -/
def latestRatio (data : List CryptoDataPoint) (cryptoId : String) : ℚ :=
  match data.getLast? with
  | some d => ratioOf d cryptoId
  | none => 0

/-- `change = ((recentAvg - olderAvg) / olderAvg) * 100`. -/
def changePct (data : List CryptoDataPoint) (cryptoId : String) : ℚ :=
  (avgRatio (recentSlice data) cryptoId - avgRatio (olderSlice data) cryptoId) /
    avgRatio (olderSlice data) cryptoId * 100

/-- `getRecommendation` over the chart data.  Slices follow JS semantics:
`recent = data.slice(-7)`, `older = data.slice(-14, -7)`.  When `older`
is empty (2-7 points) the source computes `olderAvg = 0/0 = NaN`; `NaN`
fails the `=== 0` test and every later comparison, so control reaches the
final "relatively stable" branch - that float behaviour is embedded as
the explicit `(olderSlice data).length = 0` case. -/
def getRecommendation (data : List CryptoDataPoint) (cryptoId symbol : String) :
    Recommendation :=
  if data.length < 2 then
    ⟨"HOLD", .insufficientData, "text-yellow-600", 60, cryptoId, symbol⟩
  else if (olderSlice data).length = 0 then
    ⟨"HOLD", .stable, "text-yellow-600", 60, cryptoId, symbol⟩
  else if avgRatio (olderSlice data) cryptoId = 0 then
    ⟨"HOLD", .insufficientHistorical, "text-yellow-600", 50, cryptoId, symbol⟩
  else if changePct data cryptoId > 5 ∧
      latestRatio data cryptoId > avgRatio (recentSlice data) cryptoId * (102 / 100) then
    ⟨"SELL", .upAboveAverage, "text-green-600",
      min 90 (60 + |changePct data cryptoId|), cryptoId, symbol⟩
  else if changePct data cryptoId < -5 then
    ⟨"BUY/HOLD", .downOpportunity, "text-blue-600",
      min 85 (50 + |changePct data cryptoId|), cryptoId, symbol⟩
  else
    ⟨"HOLD", .stable, "text-yellow-600", 60, cryptoId, symbol⟩

/-- The recommendation procedure as the claim words it, for comparison
with `getRecommendation`: identical except that the zero test is applied
to "the mean ratio over points [-14:-7]" as a mathematical mean, which
for an empty slice is the rational `0 / 0 = 0` rather than the `NaN` the
source computes. -/
def claimRecommendation (data : List CryptoDataPoint) (cryptoId symbol : String) :
    Recommendation :=
  if data.length < 2 then
    ⟨"HOLD", .insufficientData, "text-yellow-600", 60, cryptoId, symbol⟩
  else if avgRatio (olderSlice data) cryptoId = 0 then
    ⟨"HOLD", .insufficientHistorical, "text-yellow-600", 50, cryptoId, symbol⟩
  else if changePct data cryptoId > 5 ∧
      latestRatio data cryptoId > avgRatio (recentSlice data) cryptoId * (102 / 100) then
    ⟨"SELL", .upAboveAverage, "text-green-600",
      min 90 (60 + |changePct data cryptoId|), cryptoId, symbol⟩
  else if changePct data cryptoId < -5 then
    ⟨"BUY/HOLD", .downOpportunity, "text-blue-600",
      min 85 (50 + |changePct data cryptoId|), cryptoId, symbol⟩
  else
    ⟨"HOLD", .stable, "text-yellow-600", 60, cryptoId, symbol⟩

/-! ### Helper lemmas -/

/-- Calls recorded at or before the window's reset time accumulate in the
counter and leave every other field alone. -/
lemma foldl_trackAPICall_within_window :
    ∀ (ts : List ℤ) (b : APIBudget), (∀ t ∈ ts, t ≤ b.resetTime) →
      ts.foldl (fun s t => trackAPICall t s) b =
        { b with callsThisMinute := b.callsThisMinute + ts.length } := by
  intro ts
  induction ts with
  | nil => intro b _; simp
  | cons t ts ih =>
    intro b h
    have ht : t ≤ b.resetTime := h t (List.mem_cons_self t ts)
    have hstep : trackAPICall t b = { b with callsThisMinute := b.callsThisMinute + 1 } := by
      unfold trackAPICall
      rw [if_neg (by omega)]
    rw [List.foldl_cons, hstep, ih _ (by intro x hx; exact h x (List.mem_cons_of_mem _ hx))]
    simp [Nat.add_assoc, Nat.add_comm 1]

/-- Replaying a fetch trace against the budget never touches `backoffUntil`
(only `trackCall` events act, and `trackAPICall` leaves the field alone). -/
lemma backoffUntil_foldl_applyEvent (now : ℤ) :
    ∀ (tr : List Event) (b : APIBudget),
      (tr.foldl (applyEvent now) b).backoffUntil = b.backoffUntil := by
  intro tr
  induction tr with
  | nil => intro b; rfl
  | cons e tr ih =>
    intro b
    rw [List.foldl_cons, ih]
    cases e
    case trackCall =>
      show (trackAPICall now b).backoffUntil = b.backoffUntil
      unfold trackAPICall
      split <;> rfl
    all_goals rfl

/-! ### C8 -/

/-- C8: `getRefreshMode` maps every interval ≤ 10 minutes to price-only,
every interval in 11–30 to smart, every interval ≥ 31 to full; and
`getCacheDuration` returns a current-price TTL of 2 minutes for intervals
≤ 10 and 5 minutes otherwise, and historical TTLs of 60, 45 and 30
minutes for short, medium and long intervals respectively. -/
theorem refreshMode_and_cacheDuration_spec :
    (∀ m : ℚ, m ≤ 10 → (getRefreshMode m).mode = Mode.priceOnly) ∧
    (∀ m : ℚ, 11 ≤ m → m ≤ 30 → (getRefreshMode m).mode = Mode.smart) ∧
    (∀ m : ℚ, 31 ≤ m → (getRefreshMode m).mode = Mode.full) ∧
    (∀ m : ℚ, m ≤ 10 → getCacheDuration m DataType.current = 2 * 60 * 1000) ∧
    (∀ m : ℚ, 11 ≤ m → getCacheDuration m DataType.current = 5 * 60 * 1000) ∧
    (∀ m : ℚ, m ≤ 10 → getCacheDuration m DataType.historical = 60 * 60 * 1000) ∧
    (∀ m : ℚ, 11 ≤ m → m ≤ 30 → getCacheDuration m DataType.historical = 45 * 60 * 1000) ∧
    (∀ m : ℚ, 31 ≤ m → getCacheDuration m DataType.historical = 30 * 60 * 1000) := by
  refine ⟨?_, ?_, ?_, ?_, ?_, ?_, ?_, ?_⟩ <;> intro m h
  · simp [getRefreshMode, h]
  · intro h2
    rw [getRefreshMode, if_neg (by linarith), if_pos (by linarith)]
  · rw [getRefreshMode, if_neg (by linarith), if_neg (by linarith)]
  · simp [getCacheDuration, h]
  · rw [getCacheDuration]
    rw [if_neg (by linarith)]
  · simp [getCacheDuration, h]
  · intro h2
    rw [getCacheDuration]
    rw [if_neg (by linarith), if_pos (by linarith)]
  · rw [getCacheDuration]
    rw [if_neg (by linarith), if_neg (by linarith)]

/-- Witness for C8 at the configured interval values 5, 15 and 60. -/
theorem refreshMode_and_cacheDuration_spec_witness :
    (getRefreshMode 5).mode = Mode.priceOnly ∧
    (getRefreshMode 15).mode = Mode.smart ∧
    (getRefreshMode 60).mode = Mode.full ∧
    getCacheDuration 5 DataType.current = 2 * 60 * 1000 ∧
    getCacheDuration 15 DataType.current = 5 * 60 * 1000 ∧
    getCacheDuration 15 DataType.historical = 45 * 60 * 1000 ∧
    getCacheDuration 60 DataType.historical = 30 * 60 * 1000 :=
  ⟨refreshMode_and_cacheDuration_spec.1 5 (by norm_num),
   refreshMode_and_cacheDuration_spec.2.1 15 (by norm_num) (by norm_num),
   refreshMode_and_cacheDuration_spec.2.2.1 60 (by norm_num),
   refreshMode_and_cacheDuration_spec.2.2.2.1 5 (by norm_num),
   refreshMode_and_cacheDuration_spec.2.2.2.2.1 15 (by norm_num),
   refreshMode_and_cacheDuration_spec.2.2.2.2.2.2.1 15 (by norm_num) (by norm_num),
   refreshMode_and_cacheDuration_spec.2.2.2.2.2.2.2 60 (by norm_num)⟩

/-! ### C5 -/

/-- C5: `isRateLimited` is true exactly when the current time is before a
set `backoffUntil` or the window counter has reached the ceiling of 10;
exactly 10 calls recorded inside one 60-second window (all at or before
the window's reset time) make it true — for every later query time, until
the next recorded call past the reset time starts a fresh window and
clears it — and a recorded rejection keeps it true for the whole
5-minute backoff regardless of the call count. -/
theorem rateBudget_blocked_spec :
    (∀ (now : ℤ) (b : APIBudget),
      isRateLimited now b = true ↔
        ((∃ t, b.backoffUntil = some t ∧ now < t) ∨
          CALLS_PER_MINUTE ≤ b.callsThisMinute)) ∧
    (∀ (b : APIBudget) (ts : List ℤ),
      b.callsThisMinute = 0 → b.backoffUntil = none →
      ts.length = CALLS_PER_MINUTE → (∀ t ∈ ts, t ≤ b.resetTime) →
      (∀ now : ℤ,
        isRateLimited now (ts.foldl (fun s t => trackAPICall t s) b) = true) ∧
      (∀ tReset : ℤ, b.resetTime < tReset → ∀ now : ℤ,
        isRateLimited now
          (trackAPICall tReset (ts.foldl (fun s t => trackAPICall t s) b)) = false)) ∧
    (∀ (b : APIBudget) (now now1 : ℤ), now1 < now + BACKOFF_DURATION →
      isRateLimited now1 (handleRateLimitBudget now b) = true) := by
  refine ⟨?_, ?_, ?_⟩
  · intro now b
    cases hb : b.backoffUntil with
    | none => simp [isRateLimited, hb, CALLS_PER_MINUTE]
    | some t =>
      unfold isRateLimited
      rw [hb]
      split
      · simp_all
      · simp_all [CALLS_PER_MINUTE]
  · intro b ts hcalls hback hlen hts
    have hfold := foldl_trackAPICall_within_window ts b hts
    constructor
    · intro now
      rw [hfold]
      simp [isRateLimited, hback, CALLS_PER_MINUTE, hcalls, hlen]
    · intro tReset hre now
      rw [hfold]
      unfold trackAPICall
      rw [if_pos (by simpa using hre)]
      simp [isRateLimited, hback, CALLS_PER_MINUTE]
  · intro b now now1 h
    simp [isRateLimited, handleRateLimitBudget, h]

/-- Witness for C5: a fresh budget blocks after ten recorded calls inside
the window, unblocks on the call that resets the window, and blocks
throughout the backoff after a rejection. -/
theorem rateBudget_blocked_spec_witness :
    (isRateLimited 0 ⟨10, 60000, none, none⟩ = true) ∧
    (isRateLimited 70000
      ((List.replicate 10 (0 : ℤ)).foldl (fun s t => trackAPICall t s)
        ⟨0, 60000, none, none⟩) = true) ∧
    (isRateLimited 70000
      (trackAPICall 61000
        ((List.replicate 10 (0 : ℤ)).foldl (fun s t => trackAPICall t s)
          ⟨0, 60000, none, none⟩)) = false) ∧
    (isRateLimited 299999 (handleRateLimitBudget 0 ⟨0, 60000, none, none⟩) = true) :=
  ⟨(rateBudget_blocked_spec.1 0 ⟨10, 60000, none, none⟩).mpr (Or.inr (by decide)),
   ((rateBudget_blocked_spec.2.1 ⟨0, 60000, none, none⟩ (List.replicate 10 (0 : ℤ))
      rfl rfl (by decide) (by decide)).1 70000),
   ((rateBudget_blocked_spec.2.1 ⟨0, 60000, none, none⟩ (List.replicate 10 (0 : ℤ))
      rfl rfl (by decide) (by decide)).2 61000 (by decide) 70000),
   rateBudget_blocked_spec.2.2 ⟨0, 60000, none, none⟩ 0 299999 (by decide)⟩

/-! ### C1 -/

/-- C1: evaluation of the smart-mode rotation at the failing input.  With
2 tracked assets and the cursor starting at 0, the claim says every asset
is selected within 3 × 2 = 6 consecutive cycles; the code selects asset 0
on the first cycle, leaves the cursor stuck at 1 (1 % 3 ≠ 0, and the
cursor advances only inside `getNextCryptoForRotation`, which no longer
runs), and never selects asset 1 — in these 6 cycles or any later ones. -/
theorem rotation_stall_at_failing_input :
    smartRun 2 6 0 = (1, [0]) ∧ 1 ∉ (smartRun 2 6 0).2 ∧
    ∀ k : ℕ, smartRun 2 k 1 = (1, []) := by
  refine ⟨by decide, by decide, ?_⟩
  intro k
  induction k with
  | zero => rfl
  | succ k ih =>
    show (let p := smartCycleStep 2 1
          let q := smartRun 2 k p.1
          (q.1, (match p.2 with | some i => [i] | none => []) ++ q.2)) = (1, [])
    simp [smartCycleStep, ih]

/-! ### Trace vocabulary and retry-loop lemmas -/

/-- The trailing cache-write block of a fetch trace: present exactly on a
successful terminal response. -/
def successTail {α : Type} : FetchResult α → List Event
  | .ok _ => [Event.cacheWrite]
  | .err _ => []

/-- Number of cache writes a terminal response performs. -/
def writeCount {α : Type} : FetchResult α → ℕ
  | .ok _ => 1
  | .err _ => 0

def isNetAttempt : Event → Bool
  | .netAttempt _ => true
  | _ => false

def isTrackCall : Event → Bool
  | .trackCall => true
  | _ => false

def isCacheWrite : Event → Bool
  | .cacheWrite => true
  | _ => false

/-- Extracts the delay of a `wait` event. -/
def eventWait : Event → Option ℕ
  | .wait ms => some ms
  | _ => none

lemma countP_netAttempt_attemptPre (skip : Bool) (r : ℕ) :
    (attemptPre skip r).countP isNetAttempt = 1 := by
  unfold attemptPre
  split_ifs <;> simp [isNetAttempt]

lemma countP_trackCall_attemptPre (skip : Bool) (r : ℕ) :
    (attemptPre skip r).countP isTrackCall = if skip then 0 else 1 := by
  unfold attemptPre
  split_ifs <;> simp [isTrackCall]

lemma countP_cacheWrite_attemptPre (skip : Bool) (r : ℕ) :
    (attemptPre skip r).countP isCacheWrite = 0 := by
  unfold attemptPre
  split_ifs <;> simp [isCacheWrite]

lemma filterMap_wait_attemptPre (skip : Bool) (r : ℕ) :
    (attemptPre skip r).filterMap eventWait =
      if 0 < r then [2 ^ r * 1000] else [] := by
  unfold attemptPre
  split_ifs <;> simp [eventWait]

lemma countP_netAttempt_blocks (skip : Bool) :
    ∀ (n s : ℕ), ((List.range' s n).flatMap (attemptPre skip)).countP isNetAttempt = n := by
  intro n
  induction n with
  | zero => intro s; simp
  | succ n ih =>
    intro s
    rw [List.range'_succ, List.flatMap_cons, List.countP_append,
      countP_netAttempt_attemptPre, ih]
    omega

lemma countP_trackCall_blocks (skip : Bool) :
    ∀ (n s : ℕ), ((List.range' s n).flatMap (attemptPre skip)).countP isTrackCall =
      if skip then 0 else n := by
  intro n
  induction n with
  | zero => intro s; simp
  | succ n ih =>
    intro s
    rw [List.range'_succ, List.flatMap_cons, List.countP_append,
      countP_trackCall_attemptPre, ih]
    split_ifs <;> omega

lemma countP_cacheWrite_blocks (skip : Bool) :
    ∀ (n s : ℕ), ((List.range' s n).flatMap (attemptPre skip)).countP isCacheWrite = 0 := by
  intro n
  induction n with
  | zero => intro s; simp
  | succ n ih =>
    intro s
    rw [List.range'_succ, List.flatMap_cons, List.countP_append,
      countP_cacheWrite_attemptPre, ih]

lemma filterMap_wait_blocks (skip : Bool) :
    ∀ (n s : ℕ), 1 ≤ s →
      ((List.range' s n).flatMap (attemptPre skip)).filterMap eventWait =
        (List.range' s n).map (fun r => 2 ^ r * 1000) := by
  intro n
  induction n with
  | zero => intro s _; simp
  | succ n ih =>
    intro s hs
    rw [List.range'_succ, List.flatMap_cons, List.filterMap_append,
      filterMap_wait_attemptPre, if_pos (by omega), List.map_cons, ih (s + 1) (by omega)]
    rfl

lemma attemptLoop_zero_inl {α : Type} {skip : Bool} {resp : ℕ → Resp α} {start : ℕ}
    {e : FetchErr} (h : attemptOutcome (resp start) = .inl e) :
    attemptLoop skip resp 0 start = (attemptPre skip start, .err e) := by
  unfold attemptLoop
  rw [h]

lemma attemptLoop_zero_inr {α : Type} {skip : Bool} {resp : ℕ → Resp α} {start : ℕ}
    {d : α} (h : attemptOutcome (resp start) = .inr d) :
    attemptLoop skip resp 0 start = (attemptPre skip start ++ [Event.cacheWrite], .ok d) := by
  unfold attemptLoop
  rw [h]

lemma attemptLoop_succ_inl {α : Type} {skip : Bool} {resp : ℕ → Resp α}
    {remaining start : ℕ} {e : FetchErr} (h : attemptOutcome (resp start) = .inl e) :
    attemptLoop skip resp (remaining + 1) start =
      (attemptPre skip start ++ (attemptLoop skip resp remaining (start + 1)).1,
        (attemptLoop skip resp remaining (start + 1)).2) := by
  conv_lhs => unfold attemptLoop
  rw [h]

lemma attemptLoop_succ_inr {α : Type} {skip : Bool} {resp : ℕ → Resp α}
    {remaining start : ℕ} {d : α} (h : attemptOutcome (resp start) = .inr d) :
    attemptLoop skip resp (remaining + 1) start =
      (attemptPre skip start ++ [Event.cacheWrite], .ok d) := by
  conv_lhs => unfold attemptLoop
  rw [h]

/-- The retry loop performs between 1 and `remaining + 1` attempts at
consecutive retry counters, its trace is the concatenation of the
per-attempt prefixes, and a cache write closes the trace exactly on
success. -/
lemma attemptLoop_shape {α : Type} (skip : Bool) (resp : ℕ → Resp α) :
    ∀ (remaining start : ℕ), ∃ n, 1 ≤ n ∧ n ≤ remaining + 1 ∧
      (attemptLoop skip resp remaining start).1 =
        (List.range' start n).flatMap (attemptPre skip) ++
          successTail (attemptLoop skip resp remaining start).2 := by
  intro remaining
  induction remaining with
  | zero =>
    intro start
    refine ⟨1, le_refl 1, by omega, ?_⟩
    cases h : attemptOutcome (resp start) with
    | inl e => rw [attemptLoop_zero_inl h]; simp [List.range'_succ, successTail]
    | inr d => rw [attemptLoop_zero_inr h]; simp [List.range'_succ, successTail]
  | succ remaining ih =>
    intro start
    cases h : attemptOutcome (resp start) with
    | inr d =>
      refine ⟨1, le_refl 1, by omega, ?_⟩
      rw [attemptLoop_succ_inr h]
      simp [List.range'_succ, successTail]
    | inl e =>
      obtain ⟨n, h1, h2, hsh⟩ := ih (start + 1)
      refine ⟨n + 1, by omega, by omega, ?_⟩
      rw [attemptLoop_succ_inl h]
      rw [List.range'_succ, List.flatMap_cons, List.append_assoc, hsh]

/-- On a miss with a passing (or skipped) rate check, `fetchWithCache`
runs the retry loop with `maxRetries = 3` from retry counter 0. -/
lemma fetchWithCache_miss_eq_loop {α : Type} (b : APIBudget) (now : ℤ)
    (store : String → Option (StoredVal α)) (key : String) (dur : ℤ)
    (skip : Bool) (resp : ℕ → Resp α)
    (hnb : skip = true ∨ isRateLimited now b = false)
    (hmiss : store key = none ∨
      ∃ t d, store key = some (StoredVal.entry t d) ∧ ¬(now - t < dur)) :
    fetchWithCache b now store key dur skip resp = attemptLoop skip resp 3 0 := by
  have hcond : (!skip && isRateLimited now b) = false := by
    rcases hnb with h | h <;> simp [h]
  unfold fetchWithCache
  rw [hcond]
  simp only [Bool.false_eq_true, if_false]
  rcases hmiss with h | ⟨t, d, h, hstale⟩
  · rw [h]
  · rw [h]
    simp [hstale]

/-! ### C3 -/

/-- C3: on a cache miss while not rate-blocked, `fetchWithCache` makes
between 1 and 4 network attempts at consecutive retry counters; its trace
is exactly one block per attempt — the `2 ^ r` second wait before retry
`r` (none before the first attempt) and one `trackAPICall` immediately
before the attempt unless `skipRateLimit` — closed by exactly one cache
write when and only when the call succeeds; and the recorded waits are
exactly `2 ^ 1, …, 2 ^ (n-1)` seconds for `n` attempts. -/
theorem fetchWithCache_retry_spec {α : Type} (b : APIBudget) (now : ℤ)
    (store : String → Option (StoredVal α)) (key : String) (dur : ℤ)
    (skip : Bool) (resp : ℕ → Resp α) (trace : List Event) (res : FetchResult α)
    (hout : fetchWithCache b now store key dur skip resp = (trace, res))
    (hnb : skip = true ∨ isRateLimited now b = false)
    (hmiss : store key = none ∨
      ∃ t d, store key = some (StoredVal.entry t d) ∧ ¬(now - t < dur)) :
    ∃ n, 1 ≤ n ∧ n ≤ 4 ∧
      trace = (List.range' 0 n).flatMap (attemptPre skip) ++ successTail res ∧
      trace.countP isNetAttempt = n ∧
      trace.countP isTrackCall = (if skip then 0 else n) ∧
      trace.countP isCacheWrite = writeCount res ∧
      trace.filterMap eventWait = (List.range' 1 (n - 1)).map (fun r => 2 ^ r * 1000) := by
  rw [fetchWithCache_miss_eq_loop b now store key dur skip resp hnb hmiss] at hout
  obtain ⟨n, h1, h4, hsh⟩ := attemptLoop_shape skip resp 3 0
  rw [hout] at hsh
  simp only at hsh
  refine ⟨n, h1, by omega, hsh, ?_, ?_, ?_, ?_⟩
  · rw [hsh, List.countP_append, countP_netAttempt_blocks]
    cases res <;> simp [isNetAttempt, successTail]
  · rw [hsh, List.countP_append, countP_trackCall_blocks]
    cases res <;> simp [isTrackCall, successTail]
  · rw [hsh, List.countP_append, countP_cacheWrite_blocks]
    cases res <;> simp [isCacheWrite, successTail, writeCount]
  · rw [hsh, List.filterMap_append]
    obtain ⟨m, rfl⟩ : ∃ m, n = m + 1 := ⟨n - 1, by omega⟩
    rw [List.range'_succ, List.flatMap_cons, List.filterMap_append,
      filterMap_wait_attemptPre]
    rw [if_neg (by omega), filterMap_wait_blocks skip m 1 (le_refl 1)]
    cases res <;> simp [eventWait, successTail]

/-- Witness for C3: a fresh budget, an empty cache and a first-attempt
success give the single-block trace with its terminal cache write. -/
theorem fetchWithCache_retry_spec_witness :
    ∃ n, 1 ≤ n ∧ n ≤ 4 ∧
      ([Event.trackCall, Event.netAttempt 0, Event.cacheWrite] : List Event) =
        (List.range' 0 n).flatMap (attemptPre false) ++
          successTail (FetchResult.ok (5 : ℕ)) ∧
      ([Event.trackCall, Event.netAttempt 0, Event.cacheWrite] : List Event).countP
        isNetAttempt = n ∧
      ([Event.trackCall, Event.netAttempt 0, Event.cacheWrite] : List Event).countP
        isTrackCall = (if false then 0 else n) ∧
      ([Event.trackCall, Event.netAttempt 0, Event.cacheWrite] : List Event).countP
        isCacheWrite = writeCount (FetchResult.ok (5 : ℕ)) ∧
      ([Event.trackCall, Event.netAttempt 0, Event.cacheWrite] : List Event).filterMap
        eventWait = (List.range' 1 (n - 1)).map (fun r => 2 ^ r * 1000) :=
  fetchWithCache_retry_spec ⟨0, 60000, none, none⟩ 0 (fun _ => none) "k" 1000 false
    (fun _ => Resp.http true 200 5) [Event.trackCall, Event.netAttempt 0, Event.cacheWrite]
    (FetchResult.ok 5) rfl (Or.inr rfl) (Or.inl rfl)

/-! ### C4 -/

/-- C4: a blocked rate budget with `skipRateLimit = false` yields an
empty trace — no network attempt, no wait, no budget-counter mutation,
no cache write — and the call answers from the cache with no ttl check
when a well-formed entry exists under the key, else fails with the
rate-limited error. -/
theorem fetchWithCache_blocked_spec {α : Type} (b : APIBudget) (now : ℤ)
    (store : String → Option (StoredVal α)) (key : String) (dur : ℤ)
    (resp : ℕ → Resp α) (hblocked : isRateLimited now b = true) :
    (fetchWithCache b now store key dur false resp).1 = [] ∧
    (∀ (t : ℤ) (d : α), store key = some (StoredVal.entry t d) →
      (fetchWithCache b now store key dur false resp).2 = .ok d) ∧
    (store key = none →
      (fetchWithCache b now store key dur false resp).2 = .err .rateLimitedNoCache) := by
  unfold fetchWithCache
  rw [hblocked]
  simp only [Bool.not_false, Bool.true_and, if_true]
  refine ⟨?_, ?_, ?_⟩
  · cases h : store key with
    | none => rfl
    | some v => cases v <;> rfl
  · intro t d h
    rw [h]
  · intro h
    rw [h]

/-- Witness for C4: a budget at the call ceiling, a cache entry far older
than the ttl — its payload is still returned, with an empty trace. -/
theorem fetchWithCache_blocked_spec_witness :
    (fetchWithCache ⟨10, 1060000, none, none⟩ 1000000
        (fun _ => some (StoredVal.entry 0 (7 : ℕ))) "k" 1 false
        (fun _ => Resp.http true 200 9)).1 = [] ∧
    (fetchWithCache ⟨10, 1060000, none, none⟩ 1000000
        (fun _ => some (StoredVal.entry 0 (7 : ℕ))) "k" 1 false
        (fun _ => Resp.http true 200 9)).2 = .ok 7 :=
  ⟨(fetchWithCache_blocked_spec ⟨10, 1060000, none, none⟩ 1000000
      (fun _ => some (StoredVal.entry 0 7)) "k" 1 (fun _ => Resp.http true 200 9)
      (by decide)).1,
   (fetchWithCache_blocked_spec ⟨10, 1060000, none, none⟩ 1000000
      (fun _ => some (StoredVal.entry 0 7)) "k" 1 (fun _ => Resp.http true 200 9)
      (by decide)).2.1 0 7 rfl⟩

/-! ### C2 -/

/-- C2 counterexample: the first attempt answers HTTP 429 and the retry
succeeds.  The call as a whole succeeds, `handleRateLimit` (which lives in
`fetchCryptoData`'s catch, not inside the retry loop) never runs, and
`backoffUntil` stays `none` instead of the `now + 5 min` the claim
requires for every individual 429 attempt. -/
theorem fetch429ThenSuccess_records_no_rejection :
    (fun r => if r = 0 then Resp.http false 429 (0 : ℕ) else Resp.http true 200 42) 0 =
      Resp.http false 429 0 ∧
    (fetchWithCache ⟨0, 60000, none, none⟩ 0 (fun _ => none) "k" 1000 false
        (fun r => if r = 0 then Resp.http false 429 (0 : ℕ) else Resp.http true 200 42)).2 =
      .ok 42 ∧
    (fetchCycleBudget 0 ⟨0, 60000, none, none⟩
        (fetchWithCache ⟨0, 60000, none, none⟩ 0 (fun _ => none) "k" 1000 false
          (fun r => if r = 0 then Resp.http false 429 (0 : ℕ) else
            Resp.http true 200 42))).backoffUntil = none ∧
    (none : Option ℤ) ≠ some ((0 : ℤ) + BACKOFF_DURATION) := by
  refine ⟨rfl, by decide, by decide, by decide⟩

/-- C2 amended: a 429 response fails its attempt and triggers the next
retry, but rejection handling runs only when the 429 error propagates out
of `fetchWithCache` — i.e. when the final allowed attempt also fails —
and it is `fetchCryptoData`'s catch that then sets
`backoffUntil = now + 5 min` via `handleRateLimit`.  Here: if every
attempt answers status 429, the call fails with the rate-limit error and
the cycle's budget ends with `backoffUntil = now + BACKOFF_DURATION`. -/
theorem fetchWithCache_429_rejected_after_final_attempt {α : Type} (b : APIBudget)
    (now : ℤ) (store : String → Option (StoredVal α)) (key : String) (dur : ℤ)
    (resp : ℕ → Resp α)
    (hnb : isRateLimited now b = false) (hmiss : store key = none)
    (h429 : ∀ r, r ≤ 3 → ∃ ok body, resp r = Resp.http ok 429 body) :
    (fetchWithCache b now store key dur false resp).2 = .err .rateLimitExceeded ∧
    (fetchCycleBudget now b
        (fetchWithCache b now store key dur false resp)).backoffUntil =
      some (now + BACKOFF_DURATION) := by
  have hloop := fetchWithCache_miss_eq_loop b now store key dur false resp
    (Or.inr hnb) (Or.inl hmiss)
  have hstep : ∀ r, r ≤ 3 → attemptOutcome (resp r) = Sum.inl FetchErr.rateLimitExceeded := by
    intro r hr
    obtain ⟨ok, body, h⟩ := h429 r hr
    rw [h]
    simp [attemptOutcome]
  have hres : attemptLoop false resp 3 0 =
      ((attemptLoop false resp 3 0).1, FetchResult.err FetchErr.rateLimitExceeded) := by
    rw [attemptLoop_succ_inl (hstep 0 (by omega)),
      attemptLoop_succ_inl (hstep 1 (by omega)),
      attemptLoop_succ_inl (hstep 2 (by omega)),
      attemptLoop_zero_inl (hstep 3 (by omega))]
  have h2 : (fetchWithCache b now store key dur false resp).2 =
      FetchResult.err FetchErr.rateLimitExceeded := by
    rw [hloop, hres]
  refine ⟨h2, ?_⟩
  unfold fetchCycleBudget
  rw [h2]
  simp only [is429Error, if_true]
  rw [handleRateLimitBudget]

/-- Witness for the amended C2: four straight 429 responses on a fresh
budget set the 5-minute backoff. -/
theorem fetchWithCache_429_rejected_after_final_attempt_witness :
    (fetchWithCache ⟨0, 60000, none, none⟩ 0 (fun _ => none) "k" 1000 false
        (fun _ => Resp.http false 429 (0 : ℕ))).2 = .err .rateLimitExceeded ∧
    (fetchCycleBudget 0 ⟨0, 60000, none, none⟩
        (fetchWithCache ⟨0, 60000, none, none⟩ 0 (fun _ => none) "k" 1000 false
          (fun _ => Resp.http false 429 (0 : ℕ)))).backoffUntil =
      some ((0 : ℤ) + BACKOFF_DURATION) :=
  fetchWithCache_429_rejected_after_final_attempt ⟨0, 60000, none, none⟩ 0
    (fun _ => none) "k" 1000 (fun _ => Resp.http false 429 0) rfl rfl
    (fun _ _ => ⟨false, 0, rfl⟩)

/-! ### C6 -/

/-- C6 counterexample: with the same unblocked budget, key and network,
a corrupt cache entry makes `fetchWithCache` throw the JSON parse error
with no network attempt, while an absent entry proceeds to the network
and succeeds — a corrupt entry does not behave like an absent one, and
the error does propagate to the caller. -/
theorem corruptEntry_differs_from_absent :
    fetchWithCache (⟨0, 60000, none, none⟩ : APIBudget) 0
        (fun _ => some StoredVal.corrupt) "k" 1000 false
        (fun _ => Resp.http true 200 (7 : ℕ)) = ([], .err .parseError) ∧
    fetchWithCache (⟨0, 60000, none, none⟩ : APIBudget) 0 (fun _ => none) "k" 1000 false
        (fun _ => Resp.http true 200 (7 : ℕ)) =
      ([Event.trackCall, Event.netAttempt 0, Event.cacheWrite], .ok 7) ∧
    (FetchResult.err FetchErr.parseError : FetchResult ℕ) ≠ .ok 7 := by
  refine ⟨by decide, by decide, by decide⟩

/-- C6 amended: an unreadable stored entry under the key makes
`fetchWithCache` fail with the propagated `JSON.parse` error before any
network attempt, whichever path (blocked or not, `skipRateLimit` or not)
reads it — it is not treated as a cache miss. -/
theorem fetchWithCache_corrupt_entry_throws {α : Type} (b : APIBudget) (now : ℤ)
    (store : String → Option (StoredVal α)) (key : String) (dur : ℤ)
    (skip : Bool) (resp : ℕ → Resp α)
    (hc : store key = some StoredVal.corrupt) :
    fetchWithCache b now store key dur skip resp = ([], .err .parseError) := by
  unfold fetchWithCache
  cases h : (!skip && isRateLimited now b) <;> simp [hc]

/-- Witness for the amended C6 on both the blocked and unblocked paths. -/
theorem fetchWithCache_corrupt_entry_throws_witness :
    fetchWithCache (⟨0, 60000, none, none⟩ : APIBudget) 0
        (fun _ => some StoredVal.corrupt) "k" 1000 true
        (fun _ => Resp.http true 200 (7 : ℕ)) = ([], .err .parseError) ∧
    fetchWithCache (⟨10, 60000, none, none⟩ : APIBudget) 0
        (fun _ => some StoredVal.corrupt) "k" 1000 false
        (fun _ => Resp.http true 200 (7 : ℕ)) = ([], .err .parseError) :=
  ⟨fetchWithCache_corrupt_entry_throws ⟨0, 60000, none, none⟩ 0
      (fun _ => some StoredVal.corrupt) "k" 1000 true (fun _ => Resp.http true 200 7) rfl,
   fetchWithCache_corrupt_entry_throws ⟨10, 60000, none, none⟩ 0
      (fun _ => some StoredVal.corrupt) "k" 1000 false (fun _ => Resp.http true 200 7) rfl⟩

/-! ### C7 -/

lemma olderSlice_length (data : List CryptoDataPoint) :
    (olderSlice data).length = data.length - 7 - (data.length - 14) := by
  unfold olderSlice
  rw [List.length_drop, List.length_take, min_eq_left (Nat.sub_le _ _)]

/-- A 2-point history with a positive constant ratio: the `[-14:-7]`
slice is empty. -/
def cexPoint : CryptoDataPoint :=
  ⟨"0", 0, 1, fun _ => none, fun id => if id = "ethereum" then some 1 else none⟩

/-- C7 counterexample: at a 2-point history the mean over the empty
`[-14:-7]` slice is (as a mathematical mean over ℚ, the claim's reading)
zero, so the claim demands HOLD "Insufficient historical data"; the
source's `0/0 = NaN` fails the `=== 0` test instead and the code returns
the plain "relatively stable" HOLD with confidence 60. -/
theorem recommendation_empty_older_slice_diverges :
    getRecommendation [cexPoint, cexPoint] "ethereum" "ETH" =
      ⟨"HOLD", .stable, "text-yellow-600", 60, "ethereum", "ETH"⟩ ∧
    claimRecommendation [cexPoint, cexPoint] "ethereum" "ETH" =
      ⟨"HOLD", .insufficientHistorical, "text-yellow-600", 50, "ethereum", "ETH"⟩ ∧
    getRecommendation [cexPoint, cexPoint] "ethereum" "ETH" ≠
      claimRecommendation [cexPoint, cexPoint] "ethereum" "ETH" := by
  have holder : olderSlice [cexPoint, cexPoint] = [] := rfl
  have havg : avgRatio (olderSlice [cexPoint, cexPoint]) "ethereum" = 0 := by
    rw [holder]
    simp [avgRatio]
  have h1 : getRecommendation [cexPoint, cexPoint] "ethereum" "ETH" =
      ⟨"HOLD", .stable, "text-yellow-600", 60, "ethereum", "ETH"⟩ := by
    unfold getRecommendation
    rw [if_neg (by decide), if_pos (by rw [holder]; rfl)]
  have h2 : claimRecommendation [cexPoint, cexPoint] "ethereum" "ETH" =
      ⟨"HOLD", .insufficientHistorical, "text-yellow-600", 50, "ethereum", "ETH"⟩ := by
    unfold claimRecommendation
    rw [if_neg (by decide), if_pos havg]
  refine ⟨h1, h2, ?_⟩
  rw [h1, h2]
  intro h
  exact ReasonTag.noConfusion (congrArg Recommendation.reason h)

/-- C7 amended: `getRecommendation` returns HOLD "Insufficient data" on
fewer than 2 points; the plain HOLD (confidence 60) when 2-7 points
exist, since the empty `[-14:-7]` slice makes the source's `olderAvg`
`NaN`; HOLD "Insufficient historical data" when at least 8 points exist
and the mean ratio over `[-14:-7]` is exactly zero; otherwise, with
change% = (recent mean - older mean) / older mean × 100: SELL with
confidence `min(90, 60 + |change%|)` when change% > 5 and the latest
ratio exceeds 1.02 × the recent mean; BUY/HOLD with confidence
`min(85, 50 + |change%|)` when change% < -5; and HOLD with confidence 60
in all remaining cases. -/
theorem getRecommendation_cases (data : List CryptoDataPoint) (cryptoId symbol : String) :
    (data.length < 2 →
      getRecommendation data cryptoId symbol =
        ⟨"HOLD", .insufficientData, "text-yellow-600", 60, cryptoId, symbol⟩) ∧
    (2 ≤ data.length → data.length ≤ 7 →
      getRecommendation data cryptoId symbol =
        ⟨"HOLD", .stable, "text-yellow-600", 60, cryptoId, symbol⟩) ∧
    (8 ≤ data.length → avgRatio (olderSlice data) cryptoId = 0 →
      getRecommendation data cryptoId symbol =
        ⟨"HOLD", .insufficientHistorical, "text-yellow-600", 50, cryptoId, symbol⟩) ∧
    (8 ≤ data.length → avgRatio (olderSlice data) cryptoId ≠ 0 →
      changePct data cryptoId > 5 →
      latestRatio data cryptoId > avgRatio (recentSlice data) cryptoId * (102 / 100) →
      getRecommendation data cryptoId symbol =
        ⟨"SELL", .upAboveAverage, "text-green-600",
          min 90 (60 + |changePct data cryptoId|), cryptoId, symbol⟩) ∧
    (8 ≤ data.length → avgRatio (olderSlice data) cryptoId ≠ 0 →
      ¬(changePct data cryptoId > 5 ∧
        latestRatio data cryptoId > avgRatio (recentSlice data) cryptoId * (102 / 100)) →
      changePct data cryptoId < -5 →
      getRecommendation data cryptoId symbol =
        ⟨"BUY/HOLD", .downOpportunity, "text-blue-600",
          min 85 (50 + |changePct data cryptoId|), cryptoId, symbol⟩) ∧
    (8 ≤ data.length → avgRatio (olderSlice data) cryptoId ≠ 0 →
      ¬(changePct data cryptoId > 5 ∧
        latestRatio data cryptoId > avgRatio (recentSlice data) cryptoId * (102 / 100)) →
      ¬(changePct data cryptoId < -5) →
      getRecommendation data cryptoId symbol =
        ⟨"HOLD", .stable, "text-yellow-600", 60, cryptoId, symbol⟩) := by
  have hlen := olderSlice_length data
  refine ⟨?_, ?_, ?_, ?_, ?_, ?_⟩
  · intro h
    unfold getRecommendation
    rw [if_pos h]
  · intro h2 h7
    unfold getRecommendation
    rw [if_neg (by omega), if_pos (by omega)]
  · intro h8 h0
    unfold getRecommendation
    rw [if_neg (by omega), if_neg (by omega), if_pos h0]
  · intro h8 h0 hc hl
    unfold getRecommendation
    rw [if_neg (by omega), if_neg (by omega), if_neg h0, if_pos ⟨hc, hl⟩]
  · intro h8 h0 hno h5
    unfold getRecommendation
    rw [if_neg (by omega), if_neg (by omega), if_neg h0, if_neg hno, if_pos h5]
  · intro h8 h0 hno h5
    unfold getRecommendation
    rw [if_neg (by omega), if_neg (by omega), if_neg h0, if_neg hno, if_neg h5]

/-- Witness for the amended C7 on the 2-point history. -/
theorem getRecommendation_cases_witness :
    getRecommendation [cexPoint, cexPoint] "ethereum" "ETH" =
      ⟨"HOLD", .stable, "text-yellow-600", 60, "ethereum", "ETH"⟩ :=
  (getRecommendation_cases [cexPoint, cexPoint] "ethereum" "ETH").2.1
    (by decide) (by decide)

/-! ### C9 -/

lemma traverseOption_length {α β : Type} (f : α → Option β) :
    ∀ (l : List α) (res : List β), traverseOption f l = some res → res.length = l.length := by
  intro l
  induction l with
  | nil =>
    intro res h
    unfold traverseOption at h
    cases h
    rfl
  | cons a l ih =>
    intro res h
    unfold traverseOption at h
    rcases hfa : f a with _ | b <;> rw [hfa] at h
    · simp at h
    · rcases hl : traverseOption f l with _ | bs <;> rw [hl] at h
      · simp at h
      · cases h
        simp [ih bs hl]

/-- The resampling loop pushes at most 30 points, and the sort keeps the
count. -/
lemma sampledChartPoints_length (hd : String → Option (List (ℤ × ℚ)))
    (cryptos : List CryptoConfig) (pts : List CryptoDataPoint)
    (h : sampledChartPoints hd cryptos = some pts) : pts.length ≤ 30 := by
  unfold sampledChartPoints at h
  rcases hbd : hd "bitcoin" with _ | btc <;> rw [hbd] at h
  · cases h
    simp
  · simp only [Option.map_eq_some'] at h
    obtain ⟨res, hres, hpts⟩ := h
    rw [← hpts, List.length_mergeSort, traverseOption_length _ _ _ hres]
    refine le_trans (List.length_filterMap_le _ _) ?_
    rw [List.length_range']
    exact min_le_right _ _

/-- C9 amended: `processChartData` never returns more than 31 points
(at most 30 resampled plus the synthetic current point); but
`updateCurrentPriceInExistingData` only guarantees one more point than
its input — the trailing point is dropped only when dated today and less
than 6 hours old, so repeated update cycles (e.g. across a UTC midnight)
can grow the sequence past 31. -/
theorem chartData_length_bounds :
    (∀ (hd : String → Option (List (ℤ × ℚ))) (cur : String → Option ℚ)
        (cryptos : List CryptoConfig) (now : ℤ) (l : List CryptoDataPoint),
      processChartData hd cur cryptos now = some l → l.length ≤ 31) ∧
    (∀ (d : List CryptoDataPoint) (cur : String → Option ℚ)
        (cryptos : List CryptoConfig) (now : ℤ),
      (updateCurrentPriceInExistingData d cur cryptos now).length ≤ d.length + 1) := by
  constructor
  · intro hd cur cryptos now l h
    unfold processChartData at h
    rcases hbd : hd "bitcoin" with _ | btc <;> rw [hbd] at h
    · cases h
      simp
    · simp only [Option.map_eq_some'] at h
      obtain ⟨base, hs, hl⟩ := h
      have hb := sampledChartPoints_length hd cryptos base hs
      rw [← hl]
      split_ifs <;> simp [List.length_append] <;> omega
  · intro d cur cryptos now
    unfold updateCurrentPriceInExistingData
    split
    · exact Nat.le_succ d.length
    · cases hlast : d.getLast? with
      | none => exact Nat.le_succ d.length
      | some lp =>
        have hdk : ∀ dk : List CryptoDataPoint, dk.length ≤ d.length →
            (if (cryptos.all fun c => usdTruthy cur c.id) = true
              then dk ++ [currentPoint cur cryptos now] else dk).length ≤ d.length + 1 := by
          intro dk hdklen
          split
          · rw [List.length_append]
            simp
            omega
          · omega
        refine hdk _ ?_
        split_ifs <;> simp [List.length_dropLast]

/-- Witness for the amended C9 on an empty bitcoin series. -/
theorem chartData_length_bounds_witness : ([] : List CryptoDataPoint).length ≤ 31 :=
  chartData_length_bounds.1 (fun _ => none) (fun _ => none) [] 0 [] rfl

/-- A resampled historical point dated day 0. -/
def histPt : CryptoDataPoint :=
  ⟨"0", 0, 1, fun id => if id = "bitcoin" then some 1 else none, fun _ => none⟩

/-- A synthetic current point written at 23:50 UTC of day 0. -/
def synthPt : CryptoDataPoint :=
  ⟨"0", 85800000, 1, fun id => if id = "bitcoin" then some 1 else none, fun _ => none⟩

/-- C9 counterexample: a 31-point sequence (30 resampled points plus the
synthetic point of a cycle at 23:50 UTC) fed to the next cycle's
`updateCurrentPriceInExistingData` at 00:10 UTC the following day.  The
trailing synthetic point is only 20 minutes old but no longer dated
today, so it is not dropped, a fresh current point is appended, and the
sequence reaches 32 points — more than the claimed 31-point bound. -/
theorem chartData_exceeds_31_after_midnight :
    (updateCurrentPriceInExistingData (List.replicate 30 histPt ++ [synthPt])
        (fun id => if id = "bitcoin" then some 1 else none) [] 87000000).length = 32 ∧
    31 < 32 := by
  constructor
  · rfl
  · omega

/-! ### C10 -/

/-- C10: in both chart functions the synthetic current point is appended
only when the batch has a (truthy) usd price for bitcoin and for every
tracked asset: `processChartData` returns exactly the resampled points
otherwise, and `updateCurrentPriceInExistingData` — when bitcoin's price
is present but some tracked asset's is missing — still removes a
trailing point dated today and less than 6 hours old and appends
nothing, returning one point fewer than its input. -/
theorem syntheticPoint_requires_full_batch :
    (∀ (hd : String → Option (List (ℤ × ℚ))) (cur : String → Option ℚ)
        (cryptos : List CryptoConfig) (now : ℤ),
      (usdTruthy cur "bitcoin" && cryptos.all (fun c => usdTruthy cur c.id)) = false →
      processChartData hd cur cryptos now = sampledChartPoints hd cryptos) ∧
    (∀ (d : List CryptoDataPoint) (cur : String → Option ℚ)
        (cryptos : List CryptoConfig) (now : ℤ) (lp : CryptoDataPoint),
      usdTruthy cur "bitcoin" = true →
      cryptos.all (fun c => usdTruthy cur c.id) = false →
      d.getLast? = some lp →
      lp.date = dateString now →
      now - lp.timestamp < 6 * 60 * 60 * 1000 →
      updateCurrentPriceInExistingData d cur cryptos now = d.dropLast ∧
      (updateCurrentPriceInExistingData d cur cryptos now).length + 1 = d.length) := by
  constructor
  · intro hd cur cryptos now hcond
    unfold processChartData
    rcases hbd : hd "bitcoin" with _ | btc
    · unfold sampledChartPoints
      rw [hbd]
    · rcases hs : sampledChartPoints hd cryptos with _ | base
      · rfl
      · cases husd : usdTruthy cur "bitcoin" with
        | false => simp [husd]
        | true =>
          rw [husd] at hcond
          simp only [Bool.true_and] at hcond
          simp [husd, hcond]
  · intro d cur cryptos now lp hb hall hlast hdate h6
    have hne : d ≠ [] := by
      intro he
      rw [he] at hlast
      simp at hlast
    have hlen1 : 1 ≤ d.length := List.length_pos.mpr hne
    have hlen0 : (d.length == 0) = false := by
      simp only [beq_eq_false_iff_ne, ne_eq, List.length_eq_zero]
      exact hne
    have heq : updateCurrentPriceInExistingData d cur cryptos now = d.dropLast := by
      unfold updateCurrentPriceInExistingData
      rw [hb, hlen0]
      simp only [Bool.not_true, Bool.or_self, Bool.false_eq_true, if_false]
      rw [hlast]
      simp only [hall, Bool.false_eq_true, if_false]
      rw [if_pos ⟨hdate, by omega⟩, if_pos h6]
    refine ⟨heq, ?_⟩
    rw [heq, List.length_dropLast]
    omega

/-- Witness for C10: one point dated and timestamped now, bitcoin priced,
tracked asset "ethereum" missing from the batch — the point is removed
and nothing is appended. -/
theorem syntheticPoint_requires_full_batch_witness :
    updateCurrentPriceInExistingData
        [(⟨"0", 0, 1, fun _ => none, fun _ => none⟩ : CryptoDataPoint)]
        (fun id => if id = "bitcoin" then some 1 else none)
        [⟨"ethereum", "ETH", "Ethereum", "blue"⟩] 0 =
      ([(⟨"0", 0, 1, fun _ => none, fun _ => none⟩ : CryptoDataPoint)] :
        List CryptoDataPoint).dropLast ∧
    (updateCurrentPriceInExistingData
        [(⟨"0", 0, 1, fun _ => none, fun _ => none⟩ : CryptoDataPoint)]
        (fun id => if id = "bitcoin" then some 1 else none)
        [⟨"ethereum", "ETH", "Ethereum", "blue"⟩] 0).length + 1 = 1 :=
  syntheticPoint_requires_full_batch.2
    [⟨"0", 0, 1, fun _ => none, fun _ => none⟩]
    (fun id => if id = "bitcoin" then some 1 else none)
    [⟨"ethereum", "ETH", "Ethereum", "blue"⟩] 0
    ⟨"0", 0, 1, fun _ => none, fun _ => none⟩
    (by norm_num [usdTruthy]) rfl rfl rfl (by decide)

end CryptoAnalyzer
